import Mathlib

/-!
Verification of the health-state aggregation and eligibility-decision logic
of the nomad-node-problem-detector aggregator (src/aggregator/aggregator.go).

The per-node body of the aggregation loop (lines 108-208 of aggregator.go) is
embedded as a pure function over an explicit description of each node's I/O
outcomes in the cycle: the liveness-probe outcome, the health-snapshot fetch
outcome, and the previously stored health history.  The Go map
`previous : map[string]types.HealthCheck` built at lines 170-173 is embedded as
an association list with insert-or-overwrite semantics, and the Go map
`m : map[string][]types.HealthCheck` of per-node histories likewise.  A Go
runtime panic (nil-pointer dereference) is embedded as `Except.error ()`.
-/

/-- Mirrors `types.HealthCheck` (src/unnamed/part_000): one observation with a
stable check identifier, a stringly-typed verdict and free-form text. -/
structure HealthCheck where
  type : String
  result : String
  message : String
deriving DecidableEq

/-- Association-list embedding of the Go map `previous` built at
aggregator.go lines 170-173: insert a binding, overwriting the binding of an
existing key in place, appending otherwise. -/
def insertPrev : List (String × HealthCheck) → String → HealthCheck → List (String × HealthCheck)
  | [], k, v => [(k, v)]
  | p :: rest, k, v => if p.1 = k then (k, v) :: rest else p :: insertPrev rest k v

/-- Lookup in the association-list embedding of the Go map `previous`
(the read `prev, ok := previous[curr.Type]` at aggregator.go line 190). -/
def lookupPrev : List (String × HealthCheck) → String → Option HealthCheck
  | [], _ => none
  | p :: rest, k => if p.1 = k then some p.2 else lookupPrev rest k

/-- The loop `for _, nh := range nodeHealth { previous[nh.Type] = nh }`
(aggregator.go lines 171-173), generalized over the accumulated map. -/
def buildPreviousFrom : List (String × HealthCheck) → List HealthCheck → List (String × HealthCheck)
  | m, [] => m
  | m, nh :: rest => buildPreviousFrom (insertPrev m nh.type nh) rest

/-- The map `previous` as built from the stored node health at
aggregator.go lines 170-173, starting from the empty map. -/
def buildPrevious (nodeHealth : List HealthCheck) : List (String × HealthCheck) :=
  buildPreviousFrom [] nodeHealth

/-- The diff loop `for _, curr := range current` of aggregator.go lines
178-198: the healthy flag is cleared when a current result is the literal
"Unhealthy" or the literal "true" (line 184), and the state-changed flag is
set when a previously known type now carries a different result
(lines 190-197). -/
def diffLoop (previous : List (String × HealthCheck)) : List HealthCheck → Bool → Bool → Bool × Bool
  | [], healthyAcc, changedAcc => (healthyAcc, changedAcc)
  | curr :: rest, healthyAcc, changedAcc =>
      diffLoop previous rest
        (if curr.result == "Unhealthy" || curr.result == "true" then false else healthyAcc)
        (match lookupPrev previous curr.type with
          | some prev => if prev.result == curr.result then changedAcc else true
          | none => changedAcc)

/-- The state-diff computation of aggregator.go lines 170-198 for one node:
given the stored history and the freshly fetched sequence, returns the pair
(nodeHealthy, stateChanged), both initialized as at lines 175-176. -/
def runDiff (nodeHealth current : List HealthCheck) : Bool × Bool :=
  diffLoop (buildPrevious nodeHealth) current true false

/-- Aggregate health verdict of a cycle (the `nodeHealthy` flag after the diff
loop, aggregator.go line 175 and 184-188). -/
def aggregateHealthy (nodeHealth current : List HealthCheck) : Bool :=
  (runDiff nodeHealth current).1

/-- State-changed flag of a cycle (the `stateChanged` flag after the diff
loop, aggregator.go line 176 and 190-197). -/
def stateChanged (nodeHealth current : List HealthCheck) : Bool :=
  (runDiff nodeHealth current).2

/-- Helper: a current entry counts as healthy unless its result is the
literal "Unhealthy" or the literal "true" (aggregator.go line 184). -/
def isHealthyResult (c : HealthCheck) : Bool :=
  !(c.result == "Unhealthy" || c.result == "true")

/-- Helper: whether the diff loop flags entry c against the map built from the
previous sequence (aggregator.go lines 190-197). -/
def resultChanged (previous : List (String × HealthCheck)) (c : HealthCheck) : Bool :=
  match lookupPrev previous c.type with
  | some prev => !(prev.result == c.result)
  | none => false

/-- Outcome of the liveness probe `isNpdServerActive` (aggregator.go lines
223-247): either the HTTP request could not be built or executed (the function
returns an error), or a response with some status code was obtained. -/
inductive Probe where
  | error : Probe
  | status : Nat → Probe
deriving DecidableEq

/-- Outcome of fetching and decoding `/v1/nodehealth/` (aggregator.go lines
125-163).  `doError resp` models `client.Do` returning a non-nil error
together with the returned response pointer: `none` is a nil response
(connection-level failure), `some ()` is the non-nil, already-closed response
of a redirect-policy failure.  `readError` models `ioutil.ReadAll` failing,
`decodeError` models `json.Unmarshal` failing, and `ok current` a decoded
body. -/
inductive SnapshotFetch where
  | reqBuildError : SnapshotFetch
  | doError : Option Unit → SnapshotFetch
  | readError : SnapshotFetch
  | decodeError : SnapshotFetch
  | ok : List HealthCheck → SnapshotFetch
deriving DecidableEq

/-- Result of processing one node in one cycle: `toggle = some b` means one
`toggleNodeEligibility` call with the eligible flag b was issued, `none` means
no call; `stored = some h` means the history map entry for this node was
overwritten with h (`m[node.ID] = current`, aggregator.go line 207), `none`
means the history map was left untouched. -/
structure NodeStepResult where
  toggle : Option Bool
  stored : Option (List HealthCheck)
deriving DecidableEq

/-- The per-node body of the aggregation loop (aggregator.go lines 108-208).
On a probe error the node is skipped with no toggle (lines 111-116); on a
probe response other than 200 a toggle-ineligible call is issued (lines
118-123, 243-245); on a snapshot fetch whose `client.Do` returns an error with
a nil response, the code executes `resp.Body.Close()` on the nil response
(line 144), a nil-pointer dereference embedded as `Except.error ()`; the other
fetch failures skip the node (lines 126-163); on success the diff and the
toggle decision of lines 170-207 run. -/
def aggregateNode (nodeHealth : List HealthCheck) (probe : Probe) (fetch : SnapshotFetch) :
    Except Unit NodeStepResult :=
  match probe with
  | .error => .ok ⟨none, none⟩
  | .status code =>
    if code == 200 then
      match fetch with
      | .reqBuildError => .ok ⟨none, none⟩
      | .doError none => .error ()
      | .doError (some _) => .ok ⟨none, none⟩
      | .readError => .ok ⟨none, none⟩
      | .decodeError => .ok ⟨none, none⟩
      | .ok current =>
        let previous := buildPrevious nodeHealth
        let r := diffLoop previous current true false
        .ok ⟨if previous.length == 0 || r.2 then some r.1 else none, some current⟩
    else .ok ⟨some false, none⟩

/-- One node's worth of cycle input: its identifier and the outcomes of its
probe and snapshot fetch in this cycle. -/
structure NodeInput where
  id : String
  probe : Probe
  fetch : SnapshotFetch
deriving DecidableEq

/-- Read of `m[node.ID]` with Go's nil-map-entry default (aggregator.go lines
165-168): an absent entry behaves as the empty history. -/
def getHistory (m : List (String × List HealthCheck)) (id : String) : List HealthCheck :=
  match m with
  | [] => []
  | p :: rest => if p.1 = id then p.2 else getHistory rest id

/-- Write of `m[node.ID] = current` (aggregator.go line 207) on the
association-list embedding of the history map. -/
def setHistory (m : List (String × List HealthCheck)) (id : String) (h : List HealthCheck) :
    List (String × List HealthCheck) :=
  match m with
  | [] => [(id, h)]
  | p :: rest => if p.1 = id then (id, h) :: rest else p :: setHistory rest id h

/-- The inner `for _, node := range nodes` loop of one aggregation cycle
(aggregator.go lines 108-208): threads the history map through the nodes and
collects the issued toggle calls as (node id, eligible flag) pairs, in order.
A panic in any node's processing aborts the whole process. -/
def aggregateCycle : List (String × List HealthCheck) → List NodeInput →
    Except Unit (List (String × List HealthCheck) × List (String × Bool))
  | m, [] => .ok (m, [])
  | m, node :: rest =>
    match aggregateNode (getHistory m node.id) node.probe node.fetch with
    | .error e => .error e
    | .ok res =>
      match aggregateCycle (match res.stored with
                            | some h => setHistory m node.id h
                            | none => m) rest with
      | .error e => .error e
      | .ok (mf, calls) =>
        .ok (mf, (match res.toggle with
                  | some b => [(node.id, b)]
                  | none => []) ++ calls)

/-- One external event observed by the scheduler loop: a SIGUSR1 delivery, or
one loop iteration with its cycle inputs (`none` models the node listing of
aggregator.go line 100 failing, in which case the cycle is skipped). -/
inductive LoopEvent where
  | signal : LoopEvent
  | cycle : Option (List NodeInput) → LoopEvent
deriving DecidableEq

/-- The pause toggle performed by `flipPause` on each SIGUSR1
(aggregator.go line 254). -/
def flipPause (pause : Bool) : Bool := !pause

/-- The scheduler loop of aggregator.go lines 93-210 over a finite trace of
events: a signal flips the pause flag; an iteration while paused does nothing
(line 94-97); an iteration whose node listing failed skips the cycle (lines
100-106); otherwise the cycle body runs and its toggle calls accumulate.
The final value is (pause flag, history map, all toggle calls issued), or
`Except.error ()` if some node's processing panicked. -/
def aggregateLoop : Bool → List (String × List HealthCheck) → List LoopEvent →
    Except Unit (Bool × List (String × List HealthCheck) × List (String × Bool))
  | pause, m, [] => .ok (pause, m, [])
  | pause, m, .signal :: rest => aggregateLoop (flipPause pause) m rest
  | pause, m, .cycle nodes :: rest =>
    if pause then aggregateLoop pause m rest
    else
      match nodes with
      | none => aggregateLoop pause m rest
      | some ns =>
        match aggregateCycle m ns with
        | .error e => .error e
        | .ok (m2, calls) =>
          match aggregateLoop pause m2 rest with
          | .error e => .error e
          | .ok (pf, mf, calls2) => .ok (pf, mf, calls ++ calls2)

/-- Sample healthy observation used in concrete witnesses. -/
def hcA : HealthCheck := ⟨"CPUUnderPressure", "false", "CPU usage is 10"⟩

/-- Sample unhealthy observation used in concrete witnesses. -/
def hcB : HealthCheck := ⟨"DiskUsageHigh", "true", "disk usage is 95"⟩

/-- Lookup after insert: the inserted key maps to the inserted value, every
other key is unaffected. -/
theorem lookupPrev_insertPrev (m : List (String × HealthCheck)) (k j : String) (v : HealthCheck) :
    lookupPrev (insertPrev m k v) j = if k = j then some v else lookupPrev m j := by
  induction m with
  | nil =>
    simp only [insertPrev, lookupPrev]
  | cons p rest ih =>
    by_cases hpk : p.1 = k
    · simp only [insertPrev, if_pos hpk, lookupPrev]
      by_cases hkj : k = j
      · simp [hkj]
      · have hpj : ¬ p.1 = j := by rw [hpk]; exact hkj
        simp [hkj, hpj]
    · simp only [insertPrev, if_neg hpk, lookupPrev, ih]
      by_cases hpj : p.1 = j
      · have hkj : ¬ k = j := fun h => hpk (by rw [hpj, h])
        simp [hpj, hkj]
      · simp [hpj]

/-- Inserting into the previous-map never yields the empty map. -/
theorem insertPrev_ne_nil (m : List (String × HealthCheck)) (k : String) (v : HealthCheck) :
    insertPrev m k v ≠ [] := by
  cases m with
  | nil => simp [insertPrev]
  | cons p rest =>
    simp only [insertPrev]
    split <;> simp

/-- Building the previous-map from a nonempty accumulator stays nonempty. -/
theorem buildPreviousFrom_ne_nil (l : List HealthCheck) :
    ∀ m : List (String × HealthCheck), m ≠ [] → buildPreviousFrom m l ≠ [] := by
  induction l with
  | nil => intro m hm; simpa [buildPreviousFrom] using hm
  | cons c rest ih =>
    intro m hm
    simp only [buildPreviousFrom]
    exact ih _ (insertPrev_ne_nil _ _ _)

/-- The previous-map of a nonempty history is nonempty. -/
theorem buildPrevious_cons_ne_nil (c : HealthCheck) (rest : List HealthCheck) :
    buildPrevious (c :: rest) ≠ [] := by
  simp only [buildPrevious, buildPreviousFrom]
  exact buildPreviousFrom_ne_nil rest _ (insertPrev_ne_nil _ _ _)

/-- Every binding found in the built previous-map comes from the underlying
history entry of that type (or from the accumulator it was built over). -/
theorem lookupPrev_buildPreviousFrom_mem (l : List HealthCheck) :
    ∀ m : List (String × HealthCheck), ∀ k : String, ∀ v : HealthCheck,
      lookupPrev (buildPreviousFrom m l) k = some v →
        (v ∈ l ∧ v.type = k) ∨ lookupPrev m k = some v := by
  induction l with
  | nil =>
    intro m k v h
    exact Or.inr h
  | cons c rest ih =>
    intro m k v h
    simp only [buildPreviousFrom] at h
    rcases ih _ _ _ h with ⟨hv, ht⟩ | h2
    · exact Or.inl ⟨List.mem_cons_of_mem _ hv, ht⟩
    · rw [lookupPrev_insertPrev] at h2
      by_cases hck : c.type = k
      · rw [if_pos hck] at h2
        have hvc : v = c := by cases h2; rfl
        exact Or.inl ⟨by simp [hvc], by rw [hvc, hck]⟩
      · rw [if_neg hck] at h2
        exact Or.inr h2

/-- Every binding found in the previous-map of a history is one of the
history's entries, keyed by its own type. -/
theorem lookupPrev_buildPrevious_mem (l : List HealthCheck) (k : String) (v : HealthCheck)
    (h : lookupPrev (buildPrevious l) k = some v) : v ∈ l ∧ v.type = k := by
  rcases lookupPrev_buildPreviousFrom_mem l [] k v h with h1 | h2
  · exact h1
  · simp [lookupPrev] at h2

/-- The diff loop only consults the previous-map at the types of the current
sequence, so two maps agreeing there give identical diffs. -/
theorem diffLoop_congr (pA pB : List (String × HealthCheck)) (current : List HealthCheck)
    (h : ∀ c ∈ current, lookupPrev pA c.type = lookupPrev pB c.type) :
    ∀ healthyAcc changedAcc : Bool,
      diffLoop pA current healthyAcc changedAcc = diffLoop pB current healthyAcc changedAcc := by
  induction current with
  | nil => intro _ _; rfl
  | cons c rest ih =>
    intro healthyAcc changedAcc
    simp only [diffLoop]
    rw [h c (by simp)]
    exact ih (fun x hx => h x (by simp [hx])) _ _

/-- The healthy component of the diff loop is the conjunction of the
accumulator with per-entry healthiness of the current sequence. -/
theorem diffLoop_fst (p : List (String × HealthCheck)) (current : List HealthCheck) :
    ∀ healthyAcc changedAcc : Bool,
      (diffLoop p current healthyAcc changedAcc).1 = (healthyAcc && current.all isHealthyResult) := by
  induction current with
  | nil => intro h s; simp [diffLoop]
  | cons c rest ih =>
    intro h s
    simp only [diffLoop, List.all_cons]
    rw [ih]
    cases hX : (c.result == "Unhealthy" || c.result == "true") <;>
      simp [isHealthyResult, hX, Bool.and_assoc]

/-- The state-changed component of the diff loop is the disjunction of the
accumulator with per-entry change detection over the current sequence. -/
theorem diffLoop_snd (p : List (String × HealthCheck)) (current : List HealthCheck) :
    ∀ healthyAcc changedAcc : Bool,
      (diffLoop p current healthyAcc changedAcc).2 = (changedAcc || current.any (resultChanged p)) := by
  induction current with
  | nil => intro h s; simp [diffLoop]
  | cons c rest ih =>
    intro h s
    simp only [diffLoop, List.any_cons]
    rw [ih]
    cases hl : lookupPrev p c.type with
    | none => simp [resultChanged, hl]
    | some prev =>
      cases hres : (prev.result == c.result) <;>
        simp [resultChanged, hl, hres, Bool.or_assoc]

/-- The aggregate verdict is the all-quantified healthiness of the current
sequence; in particular it ignores the previous history. -/
theorem aggregateHealthy_eq_all (nodeHealth current : List HealthCheck) :
    aggregateHealthy nodeHealth current = current.all isHealthyResult := by
  simp only [aggregateHealthy, runDiff]
  rw [diffLoop_fst]
  simp

/-- The state-changed flag is the any-quantified change detection of the
current sequence against the previous-map. -/
theorem stateChanged_eq_any (nodeHealth current : List HealthCheck) :
    stateChanged nodeHealth current = current.any (resultChanged (buildPrevious nodeHealth)) := by
  simp only [stateChanged, runDiff]
  rw [diffLoop_snd]
  simp

/-- List.all is invariant under permutation of the list. -/
theorem all_of_perm (p : HealthCheck → Bool) (l1 l2 : List HealthCheck) (h : l1.Perm l2) :
    l1.all p = l2.all p := by
  cases hb : l2.all p
  · rw [List.all_eq_false] at hb ⊢
    obtain ⟨x, hx, hpx⟩ := hb
    exact ⟨x, h.mem_iff.mpr hx, hpx⟩
  · rw [List.all_eq_true] at hb ⊢
    exact fun x hx => hb x (h.mem_iff.mp hx)

/-- The emptiness test len(previous) == 0 of aggregator.go line 200 is
equivalent to emptiness of the stored history sequence. -/
theorem buildPrevious_length_beq_zero (nodeHealth : List HealthCheck) :
    ((buildPrevious nodeHealth).length == 0) = nodeHealth.isEmpty := by
  cases nodeHealth with
  | nil => rfl
  | cons c rest =>
    have hlen : (buildPrevious (c :: rest)).length ≠ 0 := by
      simpa [List.length_eq_zero] using buildPrevious_cons_ne_nil c rest
    cases h : ((buildPrevious (c :: rest)).length == 0)
    · rfl
    · exact absurd (beq_iff_eq.mp h) hlen

/-- Unfolding of the success path of the per-node step: the toggle decision of
aggregator.go lines 200-207 in terms of the diff outputs. -/
theorem aggregateNode_ok_unfold (nodeHealth current : List HealthCheck) :
    aggregateNode nodeHealth (Probe.status 200) (SnapshotFetch.ok current) =
      Except.ok ⟨if ((buildPrevious nodeHealth).length == 0 || stateChanged nodeHealth current) then
          some (aggregateHealthy nodeHealth current)
        else none, some current⟩ := rfl

/-- Dropping all previous entries of a type that is never looked up leaves the
previous-map lookups of all other types unchanged, uniformly in the
accumulators. -/
theorem lookupPrev_buildPreviousFrom_filter (T : String) (l : List HealthCheck) :
    ∀ mA mB : List (String × HealthCheck),
      (∀ j, j ≠ T → lookupPrev mA j = lookupPrev mB j) →
      ∀ j, j ≠ T →
        lookupPrev (buildPreviousFrom mA (l.filter (fun p => decide (p.type ≠ T)))) j =
          lookupPrev (buildPreviousFrom mB l) j := by
  induction l with
  | nil =>
    intro mA mB hm j hj
    exact hm j hj
  | cons c rest ih =>
    intro mA mB hm j hj
    by_cases hcT : c.type = T
    · have hf : (c :: rest).filter (fun p => decide (p.type ≠ T)) =
          rest.filter (fun p => decide (p.type ≠ T)) := by
        simp [List.filter_cons, hcT]
      rw [hf]
      refine ih mA (insertPrev mB c.type c) ?_ j hj
      intro i hi
      rw [lookupPrev_insertPrev, if_neg (fun h : c.type = i => hi (by rw [← h]; exact hcT))]
      exact hm i hi
    · have hf : (c :: rest).filter (fun p => decide (p.type ≠ T)) =
          c :: rest.filter (fun p => decide (p.type ≠ T)) := by
        simp [List.filter_cons, hcT]
      rw [hf]
      show lookupPrev (buildPreviousFrom (insertPrev mA c.type c) _) j = _
      refine ih _ _ ?_ j hj
      intro i hi
      rw [lookupPrev_insertPrev, lookupPrev_insertPrev]
      by_cases hci : c.type = i
      · rw [if_pos hci, if_pos hci]
      · rw [if_neg hci, if_neg hci]
        exact hm i hi

/-- Specialization: filtering a never-looked-up type out of the history does
not change any other lookup in the built previous-map. -/
theorem lookupPrev_buildPrevious_filter (T : String) (l : List HealthCheck) (j : String)
    (hj : j ≠ T) :
    lookupPrev (buildPrevious (l.filter (fun p => decide (p.type ≠ T)))) j =
      lookupPrev (buildPrevious l) j :=
  lookupPrev_buildPreviousFrom_filter T l [] [] (fun _ _ => rfl) j hj

/-- While the pause flag stays set and no signal arrives, the loop does no
work at all: no toggle calls and no history mutation. -/
theorem aggregateLoop_paused_skips (evs : List LoopEvent) :
    (∀ e ∈ evs, e ≠ LoopEvent.signal) →
      ∀ m, aggregateLoop true m evs = Except.ok (true, m, []) := by
  induction evs with
  | nil => intro _ m; rfl
  | cons e rest ih =>
    intro h m
    cases e with
    | signal => exact absurd rfl (h LoopEvent.signal (by simp))
    | cycle nodes => exact ih (fun x hx => h x (by simp [hx])) m

/-- C1: in a cycle where the liveness probe returns 200 and the snapshot is
fetched and decoded, a toggle-eligibility call is issued exactly when the
stored previous history is empty (first observation) or the diff reports a
state change; an issued call requests eligible exactly when the aggregate
verdict is healthy and ineligible otherwise; and regardless of the toggle
decision the stored history is overwritten with the current sequence
(aggregator.go lines 200-207). -/
theorem c1_success_toggle_policy (nodeHealth current : List HealthCheck) :
    aggregateNode nodeHealth (Probe.status 200) (SnapshotFetch.ok current) =
      Except.ok ⟨if (nodeHealth.isEmpty || stateChanged nodeHealth current) then
          some (aggregateHealthy nodeHealth current)
        else none, some current⟩ := by
  rw [aggregateNode_ok_unfold, buildPrevious_length_beq_zero]

/-- C2: the aggregate verdict for a fetched sequence is unhealthy exactly when
some entry's result is the literal "Unhealthy" or the literal "true"; any
other value is healthy, and one bad entry suffices regardless of all other
entries (aggregator.go lines 175-188). -/
theorem c2_unhealthy_iff_bad_entry (nodeHealth current : List HealthCheck) :
    aggregateHealthy nodeHealth current = false ↔
      ∃ c ∈ current, c.result = "Unhealthy" ∨ c.result = "true" := by
  rw [aggregateHealthy_eq_all, List.all_eq_false]
  constructor
  · rintro ⟨c, hc, hp⟩
    refine ⟨c, hc, or_iff_not_imp_left.mpr ?_⟩
    simpa [isHealthyResult] using hp
  · rintro ⟨c, hc, hp⟩
    refine ⟨c, hc, ?_⟩
    simpa [isHealthyResult] using or_iff_not_imp_left.mp hp

/-- C3: the diff reports a state change exactly when some current entry's type
is bound in the previous-map (built from the previous sequence, last entry of
a type winning) to a result different from the current one; a type with no
previous binding never sets the flag by itself (aggregator.go lines
190-197). -/
theorem c3_stateChanged_iff (nodeHealth current : List HealthCheck) :
    stateChanged nodeHealth current = true ↔
      ∃ c ∈ current, ∃ prev, lookupPrev (buildPrevious nodeHealth) c.type = some prev ∧
        prev.result ≠ c.result := by
  rw [stateChanged_eq_any, List.any_eq_true]
  constructor
  · rintro ⟨c, hc, hp⟩
    refine ⟨c, hc, ?_⟩
    unfold resultChanged at hp
    cases hl : lookupPrev (buildPrevious nodeHealth) c.type with
    | none => rw [hl] at hp; simp at hp
    | some prev =>
      rw [hl] at hp
      exact ⟨prev, rfl, by simpa using hp⟩
  · rintro ⟨c, hc, prev, hl, hne⟩
    refine ⟨c, hc, ?_⟩
    unfold resultChanged
    rw [hl]
    simpa using hne

/-- C4 counterexample: when the liveness probe errors, the code logs
"unreachable, skipping node" and continues with no toggle call at all
(aggregator.go lines 111-116), whereas the claim asserts a toggle-ineligible
call is issued in that case. -/
theorem c4_probe_error_counterexample :
    aggregateNode [hcA] Probe.error (SnapshotFetch.ok [hcB]) = Except.ok ⟨none, none⟩ ∧
      (NodeStepResult.mk none none).toggle ≠ some false :=
  ⟨rfl, by simp⟩

/-- C4 (amended): a liveness probe that succeeds but returns a non-200 status
yields a toggle-ineligible call, leaves the stored history unchanged and skips
diffing; a probe that fails or errors skips the node with no toggle call and
likewise leaves the stored history unchanged. -/
theorem c4_probe_failure_policy (nodeHealth : List HealthCheck) (fetch : SnapshotFetch)
    (code : Nat) (h : code ≠ 200) :
    aggregateNode nodeHealth (Probe.status code) fetch = Except.ok ⟨some false, none⟩ ∧
      aggregateNode nodeHealth Probe.error fetch = Except.ok ⟨none, none⟩ := by
  have hb : ((code == 200) : Bool) = false := by simpa using h
  exact ⟨by simp [aggregateNode, hb], rfl⟩

/-- Witness for the amended C4 at the concrete status 500. -/
theorem c4_probe_failure_policy_witness :
    aggregateNode [] (Probe.status 500) SnapshotFetch.readError = Except.ok ⟨some false, none⟩ ∧
      aggregateNode [] Probe.error SnapshotFetch.readError = Except.ok ⟨none, none⟩ :=
  c4_probe_failure_policy [] SnapshotFetch.readError 500 (by decide)

/-- C5: the claim that every per-node or per-cycle error is contained and the
process never panics fails on the code: when the snapshot fetch's client.Do
returns a transport error, the returned response is nil, and the error branch
at aggregator.go line 144 executes resp.Body.Close() on that nil response, a
nil-pointer dereference that panics and kills the whole loop. -/
theorem c5_nil_response_panics :
    aggregateLoop false []
        [LoopEvent.cycle (some [⟨"node1", Probe.status 200, SnapshotFetch.doError none⟩])] =
      Except.error () := rfl

/-- C6 counterexample: with empty previous history and an empty current
sequence, every (vacuously quantified) result matches the preceding cycle,
yet the code issues a toggle-eligible call because the empty-history branch of
aggregator.go line 200 fires. -/
theorem c6_empty_empty_counterexample :
    aggregateNode [] (Probe.status 200) (SnapshotFetch.ok []) =
        Except.ok ⟨some true, some []⟩ ∧
      (NodeStepResult.mk (some true) (some [])).toggle ≠ none :=
  ⟨rfl, by simp⟩

/-- C6 (amended): in a successful cycle in which every current result is
identical to the previous cycle's result for the same type, no toggle call is
issued, provided the previous history is nonempty; with an empty previous
history the first-observation branch issues a toggle instead. -/
theorem c6_stable_no_toggle (nodeHealth current : List HealthCheck)
    (hne : nodeHealth ≠ [])
    (hstable : ∀ c ∈ current, ∀ p ∈ nodeHealth, p.type = c.type → p.result = c.result) :
    aggregateNode nodeHealth (Probe.status 200) (SnapshotFetch.ok current) =
      Except.ok ⟨none, some current⟩ := by
  have hchg : stateChanged nodeHealth current = false := by
    rw [stateChanged_eq_any, List.any_eq_false]
    intro c hc
    unfold resultChanged
    cases hl : lookupPrev (buildPrevious nodeHealth) c.type with
    | none => simp
    | some prev =>
      obtain ⟨hmem, htype⟩ := lookupPrev_buildPrevious_mem nodeHealth c.type prev hl
      simp [hstable c hc prev hmem htype]
  have hb : ((buildPrevious nodeHealth).length == 0) = false := by
    rw [buildPrevious_length_beq_zero]
    cases nodeHealth with
    | nil => exact absurd rfl hne
    | cons a r => rfl
  rw [aggregateNode_ok_unfold, hb, hchg]
  simp

/-- Witness for the amended C6: one stored check, identical current result. -/
theorem c6_stable_no_toggle_witness :
    aggregateNode [hcA] (Probe.status 200) (SnapshotFetch.ok [hcA]) =
      Except.ok ⟨none, some [hcA]⟩ :=
  c6_stable_no_toggle [hcA] [hcA] (by decide) (by decide)

/-- C7: after a 200 liveness probe, an unreadable response body, a JSON decode
failure or a request-build failure each skip the node with no toggle and no
history change as claimed, but the network-error case (client.Do returning an
error with a nil response) panics at aggregator.go line 144 instead of
skipping the node. -/
theorem c7_fetch_failure_behavior :
    aggregateNode [hcB] (Probe.status 200) (SnapshotFetch.doError none) = Except.error () ∧
      aggregateNode [hcB] (Probe.status 200) SnapshotFetch.readError = Except.ok ⟨none, none⟩ ∧
      aggregateNode [hcB] (Probe.status 200) SnapshotFetch.decodeError = Except.ok ⟨none, none⟩ ∧
      aggregateNode [hcB] (Probe.status 200) SnapshotFetch.reqBuildError = Except.ok ⟨none, none⟩ :=
  ⟨rfl, rfl, rfl, rfl⟩

/-- C8: within a cycle the aggregate verdict is a pure function of the fetched
current sequence alone: it does not depend on the stored previous history
(h1 versus h2 below) and is invariant under any permutation of that sequence;
and the diff engine is deterministic: re-running it on the same
(previous, current) pair returns exactly the (aggregateHealthy, stateChanged)
pair computed for that pair. -/
theorem c8_verdict_pure_deterministic (h1 h2 c1 c2 : List HealthCheck)
    (hp : c1.Perm c2) :
    aggregateHealthy h1 c1 = aggregateHealthy h2 c2 ∧
      runDiff h1 c1 = (aggregateHealthy h1 c1, stateChanged h1 c1) := by
  refine ⟨?_, rfl⟩
  rw [aggregateHealthy_eq_all, aggregateHealthy_eq_all]
  exact all_of_perm _ _ _ hp

/-- Witness for C8 with two different histories and a two-element swap. -/
theorem c8_verdict_pure_deterministic_witness :
    aggregateHealthy [] [hcA, hcB] = aggregateHealthy [hcA] [hcB, hcA] ∧
      runDiff [] [hcA, hcB] = (aggregateHealthy [] [hcA, hcB], stateChanged [] [hcA, hcB]) :=
  c8_verdict_pure_deterministic [] [hcA] [hcA, hcB] [hcB, hcA] (List.Perm.swap hcB hcA [])

/-- C9: while the pause flag is set and no signal arrives, the scheduler loop
issues no orchestrator calls and mutates no stored history; each SIGUSR1
delivery flips the flag, and an even number of flips restores it. -/
theorem c9_pause_semantics (m : List (String × List HealthCheck)) (evs : List LoopEvent)
    (h : ∀ e ∈ evs, e ≠ LoopEvent.signal)
    (pause2 : Bool) (m2 : List (String × List HealthCheck)) (rest : List LoopEvent)
    (n : Nat) (p : Bool) :
    aggregateLoop true m evs = Except.ok (true, m, []) ∧
      aggregateLoop pause2 m2 (LoopEvent.signal :: rest) =
        aggregateLoop (flipPause pause2) m2 rest ∧
      flipPause^[2 * n] p = p := by
  refine ⟨aggregateLoop_paused_skips evs h m, rfl, ?_⟩
  induction n with
  | zero => rfl
  | succ k ih =>
    rw [Nat.mul_succ, Function.iterate_add_apply]
    have h2 : flipPause^[2] p = p := by cases p <;> rfl
    rw [h2]
    exact ih

/-- Witness for C9 on a one-iteration signal-free trace. -/
theorem c9_pause_semantics_witness :
    aggregateLoop true [] [LoopEvent.cycle none] = Except.ok (true, [], []) ∧
      aggregateLoop false [] (LoopEvent.signal :: []) =
        aggregateLoop (flipPause false) [] [] ∧
      flipPause^[2 * 1] true = true :=
  c9_pause_semantics [] [LoopEvent.cycle none] (by decide) false [] [] 1 true

/-- C10: a check type absent from the current snapshot plays no role in the
diff: deleting its entries from the stored history changes neither the verdict
nor the state-changed flag; and after a successful cycle it is gone from the
stored history, which is overwritten wholesale with the current sequence. -/
theorem c10_stale_type_ignored (nodeHealth current : List HealthCheck) (T : String)
    (hT : T ∉ current.map HealthCheck.type) :
    runDiff (nodeHealth.filter (fun p => decide (p.type ≠ T))) current =
        runDiff nodeHealth current ∧
      (aggregateNode nodeHealth (Probe.status 200) (SnapshotFetch.ok current)).map
          NodeStepResult.stored = Except.ok (some current) ∧
      current.filter (fun p => decide (p.type = T)) = [] := by
  have htypes : ∀ c ∈ current, c.type ≠ T := by
    intro c hc he
    exact hT (he ▸ List.mem_map_of_mem HealthCheck.type hc)
  refine ⟨?_, ?_, ?_⟩
  · unfold runDiff
    exact diffLoop_congr _ _ current
      (fun c hc => lookupPrev_buildPrevious_filter T nodeHealth c.type (htypes c hc)) true false
  · rw [aggregateNode_ok_unfold]
    rfl
  · rw [List.filter_eq_nil_iff]
    intro a ha
    simpa using htypes a ha

/-- Witness for C10 with a stale disk check dropped from the history. -/
theorem c10_stale_type_ignored_witness :
    runDiff ([hcA, hcB].filter (fun p => decide (p.type ≠ "DiskUsageHigh"))) [hcA] =
        runDiff [hcA, hcB] [hcA] ∧
      (aggregateNode [hcA, hcB] (Probe.status 200) (SnapshotFetch.ok [hcA])).map
          NodeStepResult.stored = Except.ok (some [hcA]) ∧
      [hcA].filter (fun p => decide (p.type = "DiskUsageHigh")) = [] :=
  c10_stale_type_ignored [hcA, hcB] [hcA] "DiskUsageHigh" (by decide)
